import Mathlib

/-!
Shallow embedding of the `defaultforwarder` Worker (src/unnamed/part_000,
package `defaultforwarder`): the transaction scheduling loop, the
breaker-mediated per-transaction processing step, the non-blocking requeue
offer, the coalescing connection-reset mechanism, and graceful stop with
optional high-priority purge.

Modelling conventions:
- A `Transaction` carries its observable attributes (`GetTarget`,
  `GetPointCount`); the outcome of `t.Process(ctx, cfg, client)` is an
  oracle boolean (`procErr`), since `Transaction` is an external contract.
- The circuit breaker (`blockedEndpoints`, defined outside this file's
  sources) is an oracle predicate `isBlock : String → Bool`; the calls the
  Worker makes to it (`close`, `recover`) are recorded as trace events.
- Go channels become explicit data: the bounded requeue channel is a list
  plus a capacity (a non-blocking send succeeds iff there is spare room),
  the capacity-1 `resetConnectionChan` is a boolean flag, and the input
  channels are lists in `WorkerState`.
- The race in `callProcess` between the `process` goroutine finishing and
  `stopChan` firing is an oracle `CallOutcome`: `finished e` means `done`
  won (with `e` the error status of `t.Process`), `stopped e` means the
  stop signal won, the context was cancelled, and the still-running
  `process` call then completed with error status `e`.  In the `stopped`
  case the goroutine's effects are linearised after the cancellation,
  which is the interleaving in which the cancellation actually preempts
  the execution.
- The two `select` statements of the `Start` loop are a relation
  `LoopStep`, since Go's `select` chooses nondeterministically among the
  ready cases.
-/

namespace DefaultForwarder

/-- Observable attributes of the external `transaction.Transaction`
contract used by the Worker: `GetTarget()` and `GetPointCount()`. -/
structure Transaction where
  target : String
  pointCount : Nat
deriving DecidableEq

/-- Observable actions the Worker performs while handling transactions:
invoking `t.Process`, offering to `RequeueChan` (success or logged drop),
breaker calls `close`/`recover`, the success callback
`OnPointSuccessfullySent`, client replacement (`CloseIdleConnections`
then `NewHTTPClient`), context cancellation, the `done` signal of the
`process` goroutine, and receiving from `HighPrio`. -/
inductive Event where
  | procCall (t : Transaction)
  | requeued (t : Transaction)
  | dropped (t : Transaction)
  | breakerClose (target : String)
  | breakerRecover (target : String)
  | pointsSent (n : Nat)
  | closeIdle (gen : Nat)
  | newClient (gen : Nat)
  | ctxCancel (t : Transaction)
  | procReturn (t : Transaction)
  | takeHigh (t : Transaction)
deriving DecidableEq

/-- Events that are externally visible effects on collaborators: offers to
the requeue sink, breaker mutations, and the success callback. -/
def Event.isExternalEffect : Event → Bool
  | Event.requeued _ => true
  | Event.dropped _ => true
  | Event.breakerClose _ => true
  | Event.breakerRecover _ => true
  | Event.pointsSent _ => true
  | _ => false

/-- Events that replace the worker's HTTP client (`resetConnections`). -/
def Event.isClientChange : Event → Bool
  | Event.closeIdle _ => true
  | Event.newClient _ => true
  | _ => false

/-- State of one Worker: the coalescing reset flag (`resetConnectionChan`
of capacity 1), a generation counter for the HTTP client (incremented by
each `resetConnections`), the bounded requeue channel (capacity plus
buffered contents), and the two input channels. -/
structure WorkerState where
  resetPending : Bool
  clientGen : Nat
  requeueCap : Nat
  requeueBuf : List Transaction
  high : List Transaction
  low : List Transaction
deriving DecidableEq

/-- Oracle for the race inside `callProcess`: either the `process`
goroutine signalled `done` first (`finished`), or `stopChan` fired first
(`stopped`); the boolean is the error status of `t.Process` when the
`process` call completed. -/
inductive CallOutcome where
  | finished (procErr : Bool)
  | stopped (procErr : Bool)
deriving DecidableEq

/-- Error status of the `t.Process` call under this outcome. -/
def CallOutcome.procErr : CallOutcome → Bool
  | CallOutcome.finished e => e
  | CallOutcome.stopped e => e

/-- Whether the stop signal preempted this execution. -/
def CallOutcome.preempted : CallOutcome → Bool
  | CallOutcome.finished _ => false
  | CallOutcome.stopped _ => true

/-- Non-blocking offer to the bounded requeue channel: the `requeue`
closure of `Worker.process` (src/unnamed/part_000 lines 214-220).  A
`select` with a `default` on a buffered channel succeeds iff the buffer
has spare capacity; otherwise the transaction is dropped with a logged
error. -/
def requeueOffer (cap : Nat) (buf : List Transaction) (t : Transaction) :
    List Transaction × List Event :=
  if buf.length < cap then (buf ++ [t], [Event.requeued t])
  else (buf, [Event.dropped t])

/-- Embedding of `Worker.process` (src/unnamed/part_000 lines 213-235):
consult the breaker; if blocked, offer to the requeue sink; otherwise run
`t.Process` (outcome `procErr`); on error, `close` the breaker for the
target then offer to the requeue sink; on success, invoke
`OnPointSuccessfullySent` with the point count then `recover` the
breaker.  Returns the new requeue buffer and the event trace. -/
def Worker.process (isBlock : String → Bool) (cap : Nat)
    (buf : List Transaction) (procErr : Bool) (t : Transaction) :
    List Transaction × List Event :=
  if isBlock t.target then
    requeueOffer cap buf t
  else if procErr then
    ((requeueOffer cap buf t).1,
      Event.procCall t ::
        (Event.breakerClose t.target :: (requeueOffer cap buf t).2))
  else
    (buf,
      [Event.procCall t, Event.pointsSent t.pointCount,
        Event.breakerRecover t.target])

/-- Embedding of `Worker.callProcess` (src/unnamed/part_000 lines
184-211): first poll `resetConnectionChan` and, if a reset is pending,
replace the client (`CloseIdleConnections` on the old client, then a new
client); then run `process` in a goroutine and race `done` against
`stopChan`.  If `done` wins, `cancel()` is still called afterwards and
`nil` is returned; if `stopChan` wins, the context is cancelled, the
caller still waits for `process` to return, and the error
"Worker was requested to stop" is returned. -/
def Worker.callProcess (isBlock : String → Bool) (s : WorkerState)
    (oc : CallOutcome) (t : Transaction) :
    WorkerState × List Event × Option String :=
  let s1 := if s.resetPending then
      { s with resetPending := false, clientGen := s.clientGen + 1 }
    else s
  let resetEvs := if s.resetPending then
      [Event.closeIdle s.clientGen, Event.newClient (s.clientGen + 1)]
    else ([] : List Event)
  let pr := Worker.process isBlock s1.requeueCap s1.requeueBuf oc.procErr t
  match oc with
  | CallOutcome.finished _ =>
      ({ s1 with requeueBuf := pr.1 },
        resetEvs ++ (pr.2 ++ [Event.procReturn t, Event.ctxCancel t]),
        none)
  | CallOutcome.stopped _ =>
      ({ s1 with requeueBuf := pr.1 },
        resetEvs ++
          (Event.ctxCancel t :: (pr.2 ++ [Event.procReturn t])),
        some "Worker was requested to stop")

/-- Embedding of `Worker.ScheduleConnectionReset` (src/unnamed/part_000
lines 174-180): a non-blocking send on the capacity-1
`resetConnectionChan`; if a reset is already pending the request is
ignored. -/
def Worker.scheduleConnectionReset (s : WorkerState) : WorkerState :=
  if s.resetPending then s else { s with resetPending := true }

/-- Purge loop of `Worker.Stop` (src/unnamed/part_000 lines 121-133):
drain every immediately-available high-priority transaction with a
non-blocking receive and run `w.callProcess(t)` on each, ignoring the
returned error.  During the purge the loop goroutine has already exited
and `stopChan` can no longer fire, so each `callProcess` race resolves as
`finished` with the oracle error status `procErr t`. -/
def Worker.purge (isBlock : String → Bool) (procErr : Transaction → Bool) :
    List Transaction → WorkerState → WorkerState × List Event
  | [], s => (s, [])
  | t :: rest, s =>
    let c := Worker.callProcess isBlock s (CallOutcome.finished (procErr t)) t
    let r := Worker.purge isBlock procErr rest c.1
    (r.1, Event.takeHigh t :: (c.2.1 ++ r.2))

/-- Embedding of the post-acknowledgement part of `Worker.Stop`
(src/unnamed/part_000 lines 117-135): if `purgeHighPrio` is set, drain the
snapshot of immediately-available high-priority transactions and process
each; otherwise do nothing further. -/
def Worker.stop (isBlock : String → Bool) (procErr : Transaction → Bool)
    (purgeHighPrio : Bool) (s : WorkerState) : WorkerState × List Event :=
  if purgeHighPrio then
    Worker.purge isBlock procErr s.high { s with high := [] }
  else (s, [])

/-- Readiness of the three channels a `select` of the `Start` loop can
observe at one instant: is a high-priority item immediately available, is
a low-priority item immediately available, is the stop signal pending. -/
structure Env where
  high : Option Transaction
  low : Option Transaction
  stop : Bool
deriving DecidableEq

/-- Result of one iteration of the `Start` loop (src/unnamed/part_000
lines 143-168): either the first (non-blocking) `select` took a
high-priority item or the stop signal, or the loop fell through to the
second (blocking) `select`, which took a high-priority item, a
low-priority item, or the stop signal. -/
inductive IterResult where
  | ranHigh1 (t : Transaction) (oc : CallOutcome)
  | stopped1
  | ranHigh2 (t : Transaction) (oc : CallOutcome)
  | ranLow2 (t : Transaction) (oc : CallOutcome)
  | stopped2
deriving DecidableEq

/-- Whether the iteration result came from the second (blocking)
`select`, i.e. the loop fell through the non-blocking check. -/
def IterResult.isPhase2 : IterResult → Bool
  | IterResult.ranHigh2 _ _ => true
  | IterResult.ranLow2 _ _ => true
  | IterResult.stopped2 => true
  | _ => false

/-- Whether the loop continues after this iteration, as decided by the
loop body: `if w.callProcess(t) == nil { continue }` after taking a
transaction, and `return` on the stop signal. -/
def IterResult.continuesFrom (isBlock : String → Bool) (s : WorkerState) :
    IterResult → Bool
  | IterResult.ranHigh1 t oc =>
      ((Worker.callProcess isBlock s oc t).2.2).isNone
  | IterResult.ranHigh2 t oc =>
      ((Worker.callProcess isBlock s oc t).2.2).isNone
  | IterResult.ranLow2 t oc =>
      ((Worker.callProcess isBlock s oc t).2.2).isNone
  | IterResult.stopped1 => false
  | IterResult.stopped2 => false

/-- One iteration of the `Start` loop as a relation: `e1` is the channel
readiness observed by the first, non-blocking `select` (cases `HighPrio`,
`stopChan`, `default`), `e2` the readiness observed by the second,
blocking `select` (cases `HighPrio`, `LowPrio`, `stopChan`).  Go's
`select` picks nondeterministically among ready cases, so any ready case
may be taken; `default` is taken only when no case is ready; the second
`select` is reached only by falling through the `default` of the
first. -/
inductive LoopStep : Env → Env → IterResult → Prop where
  | high1 : ∀ (e1 e2 : Env) (t : Transaction) (oc : CallOutcome),
      e1.high = some t → LoopStep e1 e2 (IterResult.ranHigh1 t oc)
  | stop1 : ∀ (e1 e2 : Env),
      e1.stop = true → LoopStep e1 e2 IterResult.stopped1
  | high2 : ∀ (e1 e2 : Env) (t : Transaction) (oc : CallOutcome),
      e1.high = none → e1.stop = false → e2.high = some t →
      LoopStep e1 e2 (IterResult.ranHigh2 t oc)
  | low2 : ∀ (e1 e2 : Env) (t : Transaction) (oc : CallOutcome),
      e1.high = none → e1.stop = false → e2.low = some t →
      LoopStep e1 e2 (IterResult.ranLow2 t oc)
  | stop2 : ∀ (e1 e2 : Env),
      e1.high = none → e1.stop = false → e2.stop = true →
      LoopStep e1 e2 IterResult.stopped2

/-! Concrete values used by witnesses and counterexamples. -/

/-- Sample transaction targeting endpoint "a" with one point. -/
def txA : Transaction := { target := "a", pointCount := 1 }

/-- Breaker oracle that blocks no endpoint. -/
def noBlock : String → Bool := fun _ => false

/-- Breaker oracle that blocks every endpoint. -/
def allBlock : String → Bool := fun _ => true

/-- Process-outcome oracle under which every transaction fails. -/
def alwaysErr : Transaction → Bool := fun _ => true

/-- Worker state with an empty requeue buffer of capacity 1 and empty
input channels. -/
def sC : WorkerState :=
  { resetPending := false, clientGen := 0, requeueCap := 1,
    requeueBuf := [], high := [], low := [] }

/-- Worker state like `sC` but with one high-priority transaction
queued. -/
def sP : WorkerState :=
  { resetPending := false, clientGen := 0, requeueCap := 1,
    requeueBuf := [], high := [txA], low := [] }

/-- Channel readiness with a high-priority item available, nothing else
ready. -/
def envHigh : Env := { high := some txA, low := none, stop := false }

/-- Channel readiness with nothing ready. -/
def envIdle : Env := { high := none, low := none, stop := false }

/-! Helper lemmas. -/

/-- The event trace of `Worker.process` never contains a `takeHigh`
event: receiving from `HighPrio` happens only in the loop and in the
purge of `Stop`, never inside `process`. -/
lemma process_no_takeHigh (isBlock : String → Bool) (cap : Nat)
    (buf : List Transaction) (e : Bool) (t u : Transaction) :
    Event.takeHigh u ∉ (Worker.process isBlock cap buf e t).2 := by
  cases hb : isBlock t.target <;> cases e <;>
    by_cases hc : buf.length < cap <;>
      simp [Worker.process, requeueOffer, hb, hc]

/-- The event trace of `Worker.process` never contains a client
replacement: `resetConnections` is called only from the reset poll at the
top of `callProcess`. -/
lemma process_no_clientChange (isBlock : String → Bool) (cap : Nat)
    (buf : List Transaction) (e : Bool) (t : Transaction) :
    ((Worker.process isBlock cap buf e t).2).filter Event.isClientChange
      = [] := by
  cases hb : isBlock t.target <;> cases e <;>
    by_cases hc : buf.length < cap <;>
      simp [Worker.process, requeueOffer, hb, hc, Event.isClientChange]

/-- The event trace of `Worker.callProcess` never contains a `takeHigh`
event. -/
lemma callProcess_no_takeHigh (isBlock : String → Bool) (s : WorkerState)
    (oc : CallOutcome) (t u : Transaction) :
    Event.takeHigh u ∉ (Worker.callProcess isBlock s oc t).2.1 := by
  obtain ⟨rp, cg, cap, buf, h, l⟩ := s
  cases rp <;> cases oc <;>
    simp [Worker.callProcess, process_no_takeHigh]

/-- The state returned by `Worker.callProcess` keeps the input channels
untouched: `callProcess` only polls the reset flag and writes to the
requeue buffer. -/
lemma callProcess_channels (isBlock : String → Bool) (s : WorkerState)
    (oc : CallOutcome) (t : Transaction) :
    (Worker.callProcess isBlock s oc t).1.high = s.high ∧
      (Worker.callProcess isBlock s oc t).1.low = s.low := by
  obtain ⟨rp, cg, cap, buf, h, l⟩ := s
  cases rp <;> cases oc <;> simp [Worker.callProcess]

/-- The purge loop leaves the input channel fields of the state it was
given unchanged: it recurses over its list argument only. -/
lemma purge_channels (isBlock : String → Bool)
    (procErr : Transaction → Bool) (l : List Transaction)
    (s : WorkerState) :
    (Worker.purge isBlock procErr l s).1.high = s.high ∧
      (Worker.purge isBlock procErr l s).1.low = s.low := by
  induction l generalizing s with
  | nil => exact ⟨rfl, rfl⟩
  | cons u rest ih =>
    have hc := callProcess_channels isBlock s
      (CallOutcome.finished (procErr u)) u
    have hr := ih
      ((Worker.callProcess isBlock s (CallOutcome.finished (procErr u)) u).1)
    simp only [Worker.purge]
    exact ⟨by rw [hr.1, hc.1], by rw [hr.2, hc.2]⟩

/-- Each element of the drained list contributes exactly one `takeHigh`
event to the purge trace. -/
lemma purge_count_takeHigh (isBlock : String → Bool)
    (procErr : Transaction → Bool) (l : List Transaction)
    (s : WorkerState) (t : Transaction) :
    ((Worker.purge isBlock procErr l s).2).count (Event.takeHigh t)
      = l.count t := by
  induction l generalizing s with
  | nil => simp [Worker.purge]
  | cons u rest ih =>
    have hnc : ((Worker.callProcess isBlock s
        (CallOutcome.finished (procErr u)) u).2.1).count
          (Event.takeHigh t) = 0 :=
      List.count_eq_zero.mpr (callProcess_no_takeHigh isBlock s _ u t)
    simp [Worker.purge, List.count_cons, List.count_append, ih, hnc,
      List.count_eq_zero]

/-- Requesting a connection reset sets the pending flag and changes
nothing else; requesting it again is a no-op. -/
lemma schedule_eq (s : WorkerState) :
    Worker.scheduleConnectionReset s = { s with resetPending := true } := by
  obtain ⟨rp, cg, cap, buf, h, l⟩ := s
  cases rp <;> simp [Worker.scheduleConnectionReset]

/-- Any positive number of consecutive `ScheduleConnectionReset` calls
with no intervening execution leaves the worker with exactly the pending
flag set. -/
lemma schedule_iterate (s : WorkerState) (n : Nat) (hn : 1 ≤ n) :
    Worker.scheduleConnectionReset^[n] s
      = { s with resetPending := true } := by
  induction n with
  | zero => exact absurd hn (by decide)
  | succ m ih =>
    rw [Function.iterate_succ_apply']
    rcases Nat.eq_zero_or_pos m with h0 | hpos
    · subst h0
      simp [schedule_eq]
    · rw [ih hpos, schedule_eq]

/-! Claim theorems. -/

/-- C3: when the stop signal preempts an in-flight transaction, the
Worker cancels the execution's context and still waits for the `process`
call to actually return before reporting back to the loop: in every
preempted `callProcess` trace, a `ctxCancel` event occurs and the trace
ends with the `procReturn` event, and only then is the stop error
returned (on which the loop exits, `stopped` is closed, and `Stop`'s wait
returns). -/
theorem c3_cancel_then_wait (isBlock : String → Bool) (s : WorkerState)
    (b : Bool) (t : Transaction) :
    (∃ pre mid,
      (Worker.callProcess isBlock s (CallOutcome.stopped b) t).2.1
        = pre ++ (Event.ctxCancel t :: (mid ++ [Event.procReturn t]))) ∧
    (Worker.callProcess isBlock s (CallOutcome.stopped b) t).2.2
      = some "Worker was requested to stop" :=
  ⟨⟨_, _, rfl⟩, rfl⟩

/-- C5: the per-transaction processing step `callProcess` returns a
non-nil error if and only if the stop signal preempted that execution;
every completed outcome (success, remote rejection, breaker-blocked skip,
requeue, drop) yields nil, and the loop continues exactly when the
returned error is nil. -/
theorem c5_error_iff_preempted (isBlock : String → Bool) (s : WorkerState)
    (t : Transaction) (oc : CallOutcome) :
    ((Worker.callProcess isBlock s oc t).2.2 ≠ none ↔
        oc.preempted = true) ∧
    IterResult.continuesFrom isBlock s (IterResult.ranHigh1 t oc)
      = !oc.preempted ∧
    IterResult.continuesFrom isBlock s (IterResult.ranHigh2 t oc)
      = !oc.preempted ∧
    IterResult.continuesFrom isBlock s (IterResult.ranLow2 t oc)
      = !oc.preempted := by
  cases oc <;>
    simp [Worker.callProcess, IterResult.continuesFrom,
      CallOutcome.preempted]

/-- C1 (counterexample): a high-priority transaction drained by the purge
of `Stop(true)` whose execution fails is pushed onto the requeue sink and
does update the breaker (`close` is called for its target), contradicting
the claim that purged transactions are neither requeued nor reflected in
breaker state. -/
theorem c1_counterexample :
    Event.breakerClose "a" ∈ (Worker.stop noBlock alwaysErr true sP).2 ∧
    Event.requeued txA ∈ (Worker.stop noBlock alwaysErr true sP).2 := by
  decide

/-- C2 (counterexample): a transaction preempted by the stop signal whose
cancelled execution returns an error is still pushed onto the requeue
sink and the breaker's `close` is still called for its target, because
`callProcess` waits for the `process` goroutine to finish and that
goroutine performs its normal outcome handling. -/
theorem c2_counterexample :
    Event.breakerClose "a"
        ∈ (Worker.callProcess noBlock sC (CallOutcome.stopped true) txA).2.1 ∧
    Event.requeued txA
        ∈ (Worker.callProcess noBlock sC (CallOutcome.stopped true) txA).2.1 := by
  decide

/-- C1 (amended): after the loop acknowledges termination, `Stop(true)`
drains every immediately-available high-priority transaction
non-blockingly and attempts each exactly once, synchronously, with the
returned error ignored; each drained transaction goes through the normal
`callProcess` path, so it may still be offered to the requeue sink and
still updates the breaker; and no low-priority transaction is read during
the purge (the low channel is untouched). -/
theorem c1_purge_amended (isBlock : String → Bool)
    (procErr : Transaction → Bool) (s : WorkerState) :
    (∀ t, ((Worker.stop isBlock procErr true s).2).count (Event.takeHigh t)
        = s.high.count t) ∧
    (Worker.stop isBlock procErr true s).1.high = [] ∧
    (Worker.stop isBlock procErr true s).1.low = s.low ∧
    (∀ t rest s0, Worker.purge isBlock procErr (t :: rest) s0
      = ((Worker.purge isBlock procErr rest
            (Worker.callProcess isBlock s0
              (CallOutcome.finished (procErr t)) t).1).1,
         Event.takeHigh t ::
           ((Worker.callProcess isBlock s0
              (CallOutcome.finished (procErr t)) t).2.1
             ++ (Worker.purge isBlock procErr rest
                  (Worker.callProcess isBlock s0
                    (CallOutcome.finished (procErr t)) t).1).2))) := by
  refine ⟨?_, ?_, ?_, ?_⟩
  · intro t
    simp only [Worker.stop, if_pos rfl]
    exact purge_count_takeHigh isBlock procErr s.high _ t
  · simp only [Worker.stop, if_pos rfl]
    exact (purge_channels isBlock procErr s.high _).1
  · simp only [Worker.stop, if_pos rfl]
    exact (purge_channels isBlock procErr s.high _).2
  · intro t rest s0
    rfl

/-- C2 (amended): when the stop signal preempts an in-flight transaction,
the loop terminates (`callProcess` reports the stop error) and the stop
path itself adds no external effect: the only offers to the requeue sink,
breaker mutations, and success-callback invocations in the whole
preempted `callProcess` trace are exactly those of the in-flight
`process` call, which still runs to completion under the cancelled
context and performs its normal outcome handling. -/
theorem c2_stop_frame_amended (isBlock : String → Bool) (s : WorkerState)
    (b : Bool) (t : Transaction) :
    ((Worker.callProcess isBlock s (CallOutcome.stopped b) t).2.1).filter
        Event.isExternalEffect
      = ((Worker.process isBlock s.requeueCap s.requeueBuf b t).2).filter
          Event.isExternalEffect ∧
    ((Worker.callProcess isBlock s (CallOutcome.stopped b) t).2.2).isSome
      = true := by
  obtain ⟨rp, cg, cap, buf, hq, lq⟩ := s
  cases rp <;>
    simp [Worker.callProcess, CallOutcome.procErr, Event.isExternalEffect,
      List.filter_append]

/-- C4: in every iteration of the scheduling loop, the non-blocking check
comes first: when a high-priority item is immediately available and no
stop is pending, that item is taken and executed immediately; the loop
falls through to the blocking three-way wait only when no high-priority
item is immediately available and no stop is pending; and in the blocking
wait the choice between simultaneously-ready high- and low-priority
inputs is unspecified rather than strict high-always-first (the step
relation admits both). -/
theorem c4_scheduling (e1 e2 : Env) (r : IterResult) (t : Transaction) :
    (LoopStep e1 e2 r → r.isPhase2 = true →
      e1.high = none ∧ e1.stop = false) ∧
    (e1.high = some t → e1.stop = false → LoopStep e1 e2 r →
      ∃ oc, r = IterResult.ranHigh1 t oc) ∧
    (∃ f1 f2 th tl oc1 oc2,
      f2.high = some th ∧ f2.low = some tl ∧
      LoopStep f1 f2 (IterResult.ranHigh2 th oc1) ∧
      LoopStep f1 f2 (IterResult.ranLow2 tl oc2)) := by
  refine ⟨?_, ?_, ?_⟩
  · intro h hp
    cases h <;> simp_all [IterResult.isPhase2]
  · intro hh hs h
    cases h with
    | high1 t' oc h' =>
        rw [hh] at h'
        injection h' with h2
        exact ⟨oc, by rw [h2]⟩
    | stop1 h' => simp_all
    | high2 t' oc h1 h2 h3 => simp_all
    | low2 t' oc h1 h2 h3 => simp_all
    | stop2 h1 h2 h3 => simp_all
  · exact ⟨envIdle, { high := some txA, low := some txA, stop := false },
      txA, txA, CallOutcome.finished false, CallOutcome.finished false,
      rfl, rfl,
      LoopStep.high2 _ _ _ _ rfl rfl rfl,
      LoopStep.low2 _ _ _ _ rfl rfl rfl⟩

/-- Witness for C4: with a high-priority item ready, no stop pending, an
actual loop step must take that item in the non-blocking phase. -/
theorem c4_scheduling_witness :
    ∃ oc, IterResult.ranHigh1 txA (CallOutcome.finished false)
      = IterResult.ranHigh1 txA oc :=
  (c4_scheduling envHigh envIdle
      (IterResult.ranHigh1 txA (CallOutcome.finished false)) txA).2.1
    rfl rfl
    (LoopStep.high1 envHigh envIdle txA (CallOutcome.finished false) rfl)

/-- C6: for a transaction whose target the breaker reports blocked,
`process` never invokes the transaction (no `procCall` event, no remote
call) and instead offers it to the requeue sink non-blockingly: enqueued
when the sink has room, otherwise a logged drop. -/
theorem c6_blocked_skip (isBlock : String → Bool) (cap : Nat)
    (buf : List Transaction) (e : Bool) (t : Transaction)
    (hb : isBlock t.target = true) :
    Worker.process isBlock cap buf e t = requeueOffer cap buf t ∧
    Event.procCall t ∉ (Worker.process isBlock cap buf e t).2 ∧
    (Worker.process isBlock cap buf e t).2
      = if buf.length < cap then [Event.requeued t]
        else [Event.dropped t] := by
  refine ⟨?_, ?_, ?_⟩ <;>
    by_cases hc : buf.length < cap <;>
      simp [Worker.process, requeueOffer, hb, hc]

/-- Witness for C6 at a concrete blocked transaction. -/
theorem c6_blocked_skip_witness :
    allBlock txA.target = true ∧
    (Worker.process allBlock 1 [] false txA = requeueOffer 1 [] txA ∧
      Event.procCall txA ∉ (Worker.process allBlock 1 [] false txA).2 ∧
      (Worker.process allBlock 1 [] false txA).2
        = if ([] : List Transaction).length < 1 then [Event.requeued txA]
          else [Event.dropped txA]) :=
  ⟨rfl, c6_blocked_skip allBlock 1 [] false txA rfl⟩

/-- C7: the offer to the requeue sink never blocks the Worker: with spare
capacity the transaction is enqueued, with a full sink it is dropped with
a logged error, and in either case the processing step completes and
returns nil so the loop proceeds immediately. -/
theorem c7_offer_never_blocks (cap : Nat) (buf : List Transaction)
    (t : Transaction) (isBlock : String → Bool) (s : WorkerState) :
    (buf.length < cap →
      requeueOffer cap buf t = (buf ++ [t], [Event.requeued t])) ∧
    (¬ buf.length < cap →
      requeueOffer cap buf t = (buf, [Event.dropped t])) ∧
    (Worker.callProcess isBlock s (CallOutcome.finished true) t).2.2
      = none := by
  refine ⟨fun hc => ?_, fun hc => ?_, rfl⟩ <;> simp [requeueOffer, hc]

/-- Witness for C7 with a requeue sink of capacity 0 (always full): the
failing transaction is dropped, not blocked on, and the step returns
nil. -/
theorem c7_offer_never_blocks_witness :
    requeueOffer 0 [] txA = ([], [Event.dropped txA]) ∧
    (Worker.callProcess noBlock sC (CallOutcome.finished true) txA).2.2
      = none :=
  ⟨(c7_offer_never_blocks 0 [] txA noBlock sC).2.1 (by decide),
    (c7_offer_never_blocks 0 [] txA noBlock sC).2.2⟩

/-- C8: for a transaction whose execution completes: on error the Worker
calls the breaker's `close` for the target and then offers the
transaction to the requeue sink; on success it invokes the success
callback exactly once with the transaction's point count and then calls
the breaker's `recover`; and the success callback is never invoked for
blocked or failed transactions. -/
theorem c8_completion_effects (isBlock : String → Bool) (cap : Nat)
    (buf : List Transaction) (t : Transaction)
    (hb : isBlock t.target = false) :
    (Worker.process isBlock cap buf true t).2
      = Event.procCall t ::
          (Event.breakerClose t.target :: (requeueOffer cap buf t).2) ∧
    (Worker.process isBlock cap buf false t).2
      = [Event.procCall t, Event.pointsSent t.pointCount,
          Event.breakerRecover t.target] ∧
    ((Worker.process isBlock cap buf false t).2).count
        (Event.pointsSent t.pointCount) = 1 ∧
    (∀ n, Event.pointsSent n ∉ (Worker.process isBlock cap buf true t).2) ∧
    (∀ (isB : String → Bool) (e : Bool) (n : Nat), isB t.target = true →
      Event.pointsSent n ∉ (Worker.process isB cap buf e t).2) := by
  refine ⟨?_, ?_, ?_, ?_, ?_⟩
  · simp [Worker.process, hb]
  · simp [Worker.process, hb]
  · simp [Worker.process, hb, List.count_cons]
  · intro n
    by_cases hc : buf.length < cap <;>
      simp [Worker.process, requeueOffer, hb, hc]
  · intro isB e n hbt
    by_cases hc : buf.length < cap <;>
      simp [Worker.process, requeueOffer, hbt, hc]

/-- Witness for C8 at a concrete successful transaction. -/
theorem c8_completion_effects_witness :
    noBlock txA.target = false ∧
    (Worker.process noBlock 1 [] false txA).2
      = [Event.procCall txA, Event.pointsSent txA.pointCount,
          Event.breakerRecover txA.target] :=
  ⟨rfl, (c8_completion_effects noBlock 1 [] txA rfl).2.1⟩

/-- C9: `ScheduleConnectionReset` is non-blocking and coalescing: any
positive number of calls with no intervening execution leaves exactly one
reset pending, and the next `callProcess` applies exactly one client
replacement at its very start (the old client's idle connections are
closed before the new client is installed, the first two trace events),
before any transaction work, clearing the pending flag. -/
theorem c9_reset_coalescing (isBlock : String → Bool) (s : WorkerState)
    (n : Nat) (hn : 1 ≤ n) (h0 : s.resetPending = false)
    (oc : CallOutcome) (t : Transaction) :
    (Worker.scheduleConnectionReset^[n] s).resetPending = true ∧
    (Worker.callProcess isBlock (Worker.scheduleConnectionReset^[n] s)
        oc t).1.clientGen = s.clientGen + 1 ∧
    (Worker.callProcess isBlock (Worker.scheduleConnectionReset^[n] s)
        oc t).1.resetPending = false ∧
    ((Worker.callProcess isBlock (Worker.scheduleConnectionReset^[n] s)
        oc t).2.1).filter Event.isClientChange
      = [Event.closeIdle s.clientGen, Event.newClient (s.clientGen + 1)] ∧
    ((Worker.callProcess isBlock (Worker.scheduleConnectionReset^[n] s)
        oc t).2.1).take 2
      = [Event.closeIdle s.clientGen, Event.newClient (s.clientGen + 1)] := by
  obtain ⟨rp, cg, cap, buf, hq, lq⟩ := s
  cases rp with
  | true => simp at h0
  | false =>
      rw [schedule_iterate _ n hn]
      cases oc <;>
        simp [Worker.callProcess, CallOutcome.procErr,
          Event.isClientChange, List.filter_append,
          process_no_clientChange]

/-- Witness for C9: two consecutive reset requests followed by one
execution yield exactly one client replacement, applied first. -/
theorem c9_reset_coalescing_witness :
    (Worker.scheduleConnectionReset^[2] sC).resetPending = true ∧
    (Worker.callProcess noBlock (Worker.scheduleConnectionReset^[2] sC)
        (CallOutcome.finished false) txA).1.clientGen
      = sC.clientGen + 1 ∧
    (Worker.callProcess noBlock (Worker.scheduleConnectionReset^[2] sC)
        (CallOutcome.finished false) txA).1.resetPending = false ∧
    ((Worker.callProcess noBlock (Worker.scheduleConnectionReset^[2] sC)
        (CallOutcome.finished false) txA).2.1).filter Event.isClientChange
      = [Event.closeIdle sC.clientGen, Event.newClient (sC.clientGen + 1)] ∧
    ((Worker.callProcess noBlock (Worker.scheduleConnectionReset^[2] sC)
        (CallOutcome.finished false) txA).2.1).take 2
      = [Event.closeIdle sC.clientGen, Event.newClient (sC.clientGen + 1)] :=
  c9_reset_coalescing noBlock sC 2 (by decide) rfl
    (CallOutcome.finished false) txA

/-- C10: for a transaction handled via the breaker-blocked path, the
Worker leaves the breaker state for every target unmodified: neither
`close` nor `recover` appears in the processing trace. -/
theorem c10_blocked_breaker_frame (isBlock : String → Bool) (cap : Nat)
    (buf : List Transaction) (e : Bool) (t : Transaction) (tgt : String)
    (hb : isBlock t.target = true) :
    Event.breakerClose tgt ∉ (Worker.process isBlock cap buf e t).2 ∧
    Event.breakerRecover tgt ∉ (Worker.process isBlock cap buf e t).2 := by
  by_cases hc : buf.length < cap <;>
    simp [Worker.process, requeueOffer, hb, hc]

/-- Witness for C10 at a concrete blocked transaction. -/
theorem c10_blocked_breaker_frame_witness :
    allBlock txA.target = true ∧
    (Event.breakerClose "a" ∉ (Worker.process allBlock 1 [] true txA).2 ∧
      Event.breakerRecover "a"
        ∉ (Worker.process allBlock 1 [] true txA).2) :=
  ⟨rfl, c10_blocked_breaker_frame allBlock 1 [] true txA "a" rfl⟩

end DefaultForwarder
